import Mathlib

/-!
Shallow embedding of `src/app.py` (FRED CPI data visualization dashboard).

Python strings are modelled as `List Char`; query-parameter mappings as
association lists `List (PyStr × PyStr)` in which keys may repeat, as in a
URL query string; pandas float values as `ℚ` (the exact-number idealization
of IEEE doubles — the spec explicitly excludes float-precision guarantees).
-/

abbrev PyStr := List Char

/-- Convert a Lean string literal to the `List Char` representation used
throughout the embedding. -/
def pystr (s : String) : PyStr := s.data

/-- Characters that `urllib.parse.quote_plus` leaves unescaped:
alphanumerics and `_.-~`, the default safe set of `quote_plus`. -/
def safeChar (c : Char) : Bool :=
  c.isAlphanum || c = '_' || c = '.' || c = '-' || c = '~'

/-- A character that survives a `quote_plus`/`unquote_plus` round trip
unchanged up to the space/plus exchange. -/
def safeOrSpace (c : Char) : Bool := safeChar c || c = ' '

/-- UTF-8 encoding of a code point as a list of byte values, used by
`quote_plus` for characters outside the safe set. -/
def utf8Bytes (c : Char) : List Nat :=
  let n := c.toNat
  if n < 128 then [n]
  else if n < 2048 then [192 + n / 64, 128 + n % 64]
  else if n < 65536 then [224 + n / 4096, 128 + n / 64 % 64, 128 + n % 64]
  else [240 + n / 262144, 128 + n / 4096 % 64, 128 + n / 64 % 64, 128 + n % 64]

/-- Uppercase hexadecimal digit character, as produced by percent-encoding. -/
def hexDigitChar (n : Nat) : Char :=
  if n < 10 then Char.ofNat (48 + n) else Char.ofNat (55 + n)

/-- Percent-encoding of one byte: `%` followed by two uppercase hex digits. -/
def percentByte (b : Nat) : List Char :=
  ['%', hexDigitChar (b / 16), hexDigitChar (b % 16)]

/-- Model of `urllib.parse.quote_plus`: safe characters are kept, a space becomes `+`,
any other character is percent-encoded byte by byte. -/
def quote_plus (s : PyStr) : PyStr :=
  s.flatMap fun c =>
    if safeChar c then [c]
    else if c = ' ' then ['+']
    else (utf8Bytes c).flatMap percentByte

/-- Value of a hexadecimal digit character, if it is one. -/
def hexVal (c : Char) : Option Nat :=
  if 48 ≤ c.toNat ∧ c.toNat ≤ 57 then some (c.toNat - 48)
  else if 65 ≤ c.toNat ∧ c.toNat ≤ 70 then some (c.toNat - 55)
  else if 97 ≤ c.toNat ∧ c.toNat ≤ 102 then some (c.toNat - 87)
  else none

/-- Model of `urllib.parse.unquote_plus` as applied by `parse_qs`: `+` becomes a
space, `%XY` with two hex digits decodes to the byte value, and malformed
escapes are kept verbatim.  Escaped bytes ≥ 128 (fragments of multi-byte
UTF-8 sequences) decode to the replacement character; the repository only
ever produces ASCII, so that corner is never exercised by the claims. -/
def unquote_plus : PyStr → PyStr
  | [] => []
  | '+' :: rest => ' ' :: unquote_plus rest
  | '%' :: h1 :: h2 :: rest2 =>
    (match hexVal h1, hexVal h2 with
     | some a, some b =>
       (if 16 * a + b < 128 then Char.ofNat (16 * a + b) else Char.ofNat 0xFFFD)
         :: unquote_plus rest2
     | _, _ => '%' :: unquote_plus (h1 :: h2 :: rest2))
  | c :: rest => c :: unquote_plus rest

/-- Python `str.split(sep)` for a single-character separator. -/
def splitOnChar (sep : Char) : PyStr → List PyStr
  | [] => [[]]
  | c :: rest =>
    match splitOnChar sep rest with
    | [] => if c = sep then [[], []] else [[c]]
    | r :: rs => if c = sep then [] :: r :: rs else (c :: r) :: rs

/-- Python `str.split(sep, 1)`: split at the first occurrence, if any. -/
def splitFirst (sep : Char) : PyStr → Option (PyStr × PyStr)
  | [] => none
  | c :: rest =>
    if c = sep then some ([], rest)
    else (splitFirst sep rest).map fun p => (c :: p.1, p.2)

/-- Python `"&".join(fields)`. -/
def joinAmp : List PyStr → PyStr
  | [] => []
  | [f] => f
  | f :: g :: rest => f ++ '&' :: joinAmp (g :: rest)

/-- One field of `urllib.parse.parse_qsl` with default arguments
(`keep_blank_values=False`): empty fields, fields without `=`, and fields
whose raw value is empty are skipped; name and value are unquoted. -/
def parseField (f : PyStr) : Option (PyStr × PyStr) :=
  if f = [] then none
  else
    match splitFirst '=' f with
    | none => none
    | some (n, v) => if v = [] then none else some (unquote_plus n, unquote_plus v)

/-- Model of `urllib.parse.parse_qsl`: split the query string on `&` and parse each
field.  This is the standard parsing the browser/Streamlit layer applies to
a shared URL before `get_url_params` sees the parameter mapping. -/
def parse_query_string (qs : PyStr) : List (PyStr × PyStr) :=
  (splitOnChar '&' qs).filterMap parseField

/-- One `key=value` field of a urlencoded query string. -/
def encodePair (p : PyStr × PyStr) : PyStr :=
  quote_plus p.1 ++ '=' :: quote_plus p.2

/-- Flattening step of `urlencode(params, doseq=True)`: a key with a list
value contributes one `(key, element)` pair per element, so an empty list
contributes nothing; scalar string values are modelled as one-element
lists. -/
def flattenParams (params : List (PyStr × List PyStr)) : List (PyStr × PyStr) :=
  params.flatMap fun p => p.2.map fun v => (p.1, v)

/-- Model of `urllib.parse.urlencode(params, doseq=True)`. -/
def urlencode (params : List (PyStr × List PyStr)) : PyStr :=
  joinAmp ((flattenParams params).map encodePair)

/-! ### Calendar dates

`datetime` values are modelled at day granularity (the only granularity the
codec serializes). -/

structure Date where
  year : Nat
  month : Nat
  day : Nat
deriving DecidableEq, Repr

def isLeap (y : Nat) : Bool :=
  y % 4 = 0 && (y % 100 ≠ 0 || y % 400 = 0)

def daysInMonth (y m : Nat) : Nat :=
  if m = 2 then (if isLeap y then 29 else 28)
  else if m = 4 ∨ m = 6 ∨ m = 9 ∨ m = 11 then 30
  else 31

/-- The dates `datetime` can represent: year 1–9999, with a calendar-valid
month and day (`datetime.strptime` rejects anything else). -/
def ValidDate (d : Date) : Prop :=
  1 ≤ d.year ∧ d.year ≤ 9999 ∧ 1 ≤ d.month ∧ d.month ≤ 12 ∧
    1 ≤ d.day ∧ d.day ≤ daysInMonth d.year d.month

instance (d : Date) : Decidable (ValidDate d) := by
  unfold ValidDate; infer_instance

/-- Date comparison at day granularity. -/
def dateLe (a b : Date) : Bool :=
  a.year < b.year ||
    (a.year = b.year &&
      (a.month < b.month || (a.month = b.month && a.day ≤ b.day)))

/-- The character of a decimal digit value. -/
def digitChar (d : Nat) : Char := Char.ofNat (48 + d)

/-- Fuel-driven digit extraction, least significant digit appended last. -/
def natCharsAux : Nat → Nat → List Char
  | 0, _ => []
  | _ + 1, 0 => []
  | fuel + 1, n + 1 =>
    natCharsAux fuel ((n + 1) / 10) ++ [digitChar ((n + 1) % 10)]

/-- Decimal digit characters of a natural number, most significant first
(Python `str(n)`). -/
def natChars (n : Nat) : List Char :=
  if n = 0 then ['0'] else natCharsAux (n + 1) n

/-- Left-pad with `'0'` to width `k` (`strftime` zero-padding). -/
def padZero (k : Nat) (l : List Char) : List Char :=
  List.replicate (k - l.length) '0' ++ l

/-- Number denoted by a list of decimal digit characters. -/
def charsToNat (l : List Char) : Nat :=
  l.foldl (fun a c => 10 * a + (c.toNat - 48)) 0

/-- Model of `date.strftime('%Y-%m-%d')`: zero-padded `YYYY-MM-DD`. -/
def formatDate (d : Date) : PyStr :=
  padZero 4 (natChars d.year) ++
    '-' :: (padZero 2 (natChars d.month) ++ '-' :: padZero 2 (natChars d.day))

/-- ASCII decimal digit test (code points 48–57). -/
def isDigitChar (c : Char) : Bool := 48 ≤ c.toNat && c.toNat ≤ 57

/-- Greedily take up to `k` leading decimal digit characters, returning them
and the remainder (the scanning step of `strptime` numeric directives). -/
def takeDigits : Nat → PyStr → PyStr × PyStr
  | 0, s => ([], s)
  | _ + 1, [] => ([], [])
  | k + 1, c :: rest =>
    if isDigitChar c then
      let p := takeDigits k rest
      (c :: p.1, p.2)
    else ([], c :: rest)

/-- Model of `datetime.strptime(s, '%Y-%m-%d')` at day granularity: exactly
four year digits (CPython compiles `%Y` to the regex `\d\d\d\d`), a dash,
one or two month digits, a dash, one or two day digits (`%m` and `%d`
accept one or two digits), nothing left over, and the result must be a
calendar-valid date; `none` models the `ValueError` path. -/
def parseDate (s : PyStr) : Option Date :=
  let p1 := takeDigits 4 s
  if p1.1.length ≠ 4 then none
  else
    match p1.2 with
    | '-' :: r2 =>
      let p2 := takeDigits 2 r2
      if p2.1 = [] then none
      else
        match p2.2 with
        | '-' :: r4 =>
          let p3 := takeDigits 2 r4
          if p3.1 = [] ∨ p3.2 ≠ [] then none
          else
            let d : Date := ⟨charsToNat p1.1, charsToNat p2.1, charsToNat p3.1⟩
            if ValidDate d then some d else none
        | _ => none
    | _ => none

/-- Days since the civil epoch 1970-01-01 (`timedelta` arithmetic needs a
linear day count; standard civil-calendar conversion). -/
def toRataDie (d : Date) : Int :=
  let y : Int := if d.month ≤ 2 then (d.year : Int) - 1 else (d.year : Int)
  let era : Int := (if 0 ≤ y then y else y - 399) / 400
  let yoe : Int := y - era * 400
  let mp : Int := ((d.month : Int) + 9) % 12
  let doy : Int := (153 * mp + 2) / 5 + (d.day : Int) - 1
  let doe : Int := yoe * 365 + yoe / 4 - yoe / 100 + doy
  era * 146097 + doe - 719468

/-- Civil date of a day count since 1970-01-01 (inverse direction of the
standard civil-calendar conversion). -/
def fromRataDie (z0 : Int) : Date :=
  let z : Int := z0 + 719468
  let era : Int := (if 0 ≤ z then z else z - 146096) / 146097
  let doe : Int := z - era * 146097
  let yoe : Int := (doe - doe / 1460 + doe / 36524 - doe / 146096) / 365
  let y : Int := yoe + era * 400
  let doy : Int := doe - (365 * yoe + yoe / 4 - yoe / 100)
  let mp : Int := (5 * doy + 2) / 153
  let dd : Int := doy - (153 * mp + 2) / 5 + 1
  let mm : Int := if mp < 10 then mp + 3 else mp - 9
  ⟨(if mm ≤ 2 then y + 1 else y).toNat, mm.toNat, dd.toNat⟩

/-- Model of `datetime.now() - timedelta(days=365*5)`, the default start date the UI
substitutes when the URL carries none (`app.py` line 220). -/
def defaultStartDate (now : Date) : Date :=
  fromRataDie (toRataDie now - 1825)

/-- Model of `datetime.now()`, the default end date (`app.py` line 227). -/
def defaultEndDate (now : Date) : Date := now

/-! ### Static tables of `app.py` -/

/-- The `CPI_SERIES` dict (`app.py` lines 26–36): display name → FRED series id, as
an association list preserving Python dict insertion order. -/
def CPI_SERIES : List (PyStr × PyStr) :=
  [(pystr ("All Items"), pystr ("CPIAUCSL")),
   (pystr ("All Items Less Food and Energy"), pystr ("CPILFESL")),
   (pystr ("Food and Beverages"), pystr ("CPIFABSL")),
   (pystr ("Housing"), pystr ("CPIHOSSL")),
   (pystr ("Transportation"), pystr ("CPITRNSL")),
   (pystr ("Medical Care"), pystr ("CPIMEDSL")),
   (pystr ("Recreation"), pystr ("CPIRECSL")),
   (pystr ("Education and Communication"), pystr ("CPIEDUSL")),
   (pystr ("Other Goods and Services"), pystr ("CPIOGSSL"))]

/-- The `COLOR_PALETTE` list (`app.py` lines 39–49): the fixed nine-color palette. -/
def COLOR_PALETTE : List PyStr :=
  [pystr ("#1f77b4"), pystr ("#ff7f0e"), pystr ("#2ca02c"),
   pystr ("#d62728"), pystr ("#9467bd"), pystr ("#8c564b"),
   pystr ("#e377c2"), pystr ("#7f7f7f"), pystr ("#bcbd22")]

def indexValuesMode : PyStr := pystr ("Index Values")

def yoyChangesMode : PyStr := pystr ("Year-over-Year Changes")

def bothMode : PyStr := pystr ("Both")

/-- The view-type labels accepted by `get_url_params` (`app.py` line 168). -/
def validViewTypes : List PyStr := [indexValuesMode, yoyChangesMode, bothMode]

def startDateKey : PyStr := pystr ("start_date")

def endDateKey : PyStr := pystr ("end_date")

def seriesKey : PyStr := pystr ("series")

def viewTypeKey : PyStr := pystr ("view_type")

/-- The fallback series selection (`app.py` lines 165 and 182). -/
def defaultSeriesPair : List PyStr :=
  [pystr ("All Items"), pystr ("All Items Less Food and Energy")]

/-! ### Change Calculator -/

/-- Model of `pandas.Series.pct_change(periods=p)`: position `i` holds
`value[i]/value[i-p] - 1` when `i ≥ p` and NaN (modelled as `none`)
otherwise. -/
def pct_change (periods : Nat) (values : List ℚ) : List (Option ℚ) :=
  (List.range values.length).map fun i =>
    if periods ≤ i then some (values.getD i 0 / values.getD (i - periods) 0 - 1)
    else none

/-- The `calculate_yoy_change` function (`app.py` lines 60–62):
`df['value'].pct_change(periods=12) * 100`. -/
def calculate_yoy_change (values : List ℚ) : List (Option ℚ) :=
  (pct_change 12 values).map (Option.map fun q => q * 100)

/-! ### Chart Builder -/

/-- A fetched series: date index plus the `value` column. -/
structure DataFrame where
  index : List Date
  value : List ℚ
deriving DecidableEq, Repr

inductive DashStyle
  | solid
  | dot
deriving DecidableEq, Repr

/-- Plotly y-axis binding: `y` is the primary (left) axis, `y2` the
secondary (right) axis. -/
inductive AxisSide
  | y
  | y2
deriving DecidableEq, Repr

/-- One `go.Scatter` trace as constructed by `create_plot`. -/
structure Trace where
  x : List Date
  y : List (Option ℚ)
  name : PyStr
  width : Nat
  color : PyStr
  dash : DashStyle
  yaxis : AxisSide
deriving DecidableEq, Repr

structure FigLayout where
  yaxis_title : PyStr
  yaxis2_title : Option PyStr
deriving DecidableEq, Repr

structure Figure where
  traces : List Trace
  layout : FigLayout
deriving DecidableEq, Repr

/-- The `series_colors` dict comprehension of `create_plot` (`app.py`
lines 69–70): the color of a display name is the palette entry at its
position in the iteration order of `df_dict`, modulo the palette length.
Looking up a key absent from the dict would be a Python `KeyError`; the
model returns `[]` there, a case no call site reaches. -/
def series_colors (names : List PyStr) (s : PyStr) : PyStr :=
  match names.enum.find? (fun p => decide (p.2 = s)) with
  | some p => COLOR_PALETTE.getD (p.1 % COLOR_PALETTE.length) []
  | none => []

/-- The `create_plot` function (`app.py` lines 64–126). -/
def create_plot (df_dict : List (PyStr × DataFrame)) (view_type : PyStr) :
    Figure :=
  let names := df_dict.map Prod.fst
  let indexTraces : List Trace :=
    if view_type = indexValuesMode ∨ view_type = bothMode then
      df_dict.map fun p =>
        { x := p.2.index
          y := p.2.value.map some
          name := p.1 ++ pystr (" (Index)")
          width := 2
          color := series_colors names p.1
          dash := if view_type = bothMode then DashStyle.dot else DashStyle.solid
          yaxis := AxisSide.y }
    else []
  let yoyTraces : List Trace :=
    if view_type = yoyChangesMode ∨ view_type = bothMode then
      df_dict.map fun p =>
        { x := p.2.index
          y := calculate_yoy_change p.2.value
          name := p.1 ++ pystr (" (YoY %)")
          width := 2
          color := series_colors names p.1
          dash := DashStyle.solid
          yaxis := if view_type = bothMode then AxisSide.y2 else AxisSide.y }
    else []
  let layout : FigLayout :=
    if view_type = bothMode then
      { yaxis_title := pystr ("Index Value")
        yaxis2_title := some (pystr ("Year-over-Year Change (%)")) }
    else
      { yaxis_title :=
          if view_type = indexValuesMode then pystr ("Index Value")
          else pystr ("Year-over-Year Change (%)")
        yaxis2_title := none }
  { traces := indexTraces ++ yoyTraces, layout := layout }

/-! ### URL State Codec -/

/-- Model of `st.query_params.get(k)`: the last value carried by a repeated key. -/
def qget (qp : List (PyStr × PyStr)) (k : PyStr) : Option PyStr :=
  ((qp.filter fun p => decide (p.1 = k)).getLast?).map Prod.snd

/-- Model of `st.query_params.get_all(k)`: every value of the key, in order. -/
def qgetAll (qp : List (PyStr × PyStr)) (k : PyStr) : List PyStr :=
  (qp.filter fun p => decide (p.1 = k)).map Prod.snd

/-- The record returned by `get_url_params`: `none` dates mean "use the
default", exactly like the Python `None`. -/
structure UrlParams where
  start_date : Option Date
  end_date : Option Date
  series : List PyStr
  view_type : PyStr
deriving DecidableEq, Repr

/-- Model of `s.replace('+', ' ')` (`app.py` line 159). -/
def plusToSpace (s : PyStr) : PyStr :=
  s.map fun c => if c = '+' then ' ' else c

/-- The `get_url_params` function (`app.py` lines 128–184).  The Python truthiness and
`isinstance(…, str)` guards on the date strings are subsumed by the length
check in this typed model (an empty string has length 0, and every value is
a string); the `series` binding of line 134 is dead code, shadowed by
`get_all` at line 156, and so does not appear.  The enclosing
`try/except` is unreachable in the model because every step is total. -/
def get_url_params (qp : List (PyStr × PyStr)) : UrlParams :=
  let start_date_str := qget qp startDateKey
  let end_date_str := qget qp endDateKey
  let view_type0 := (qget qp viewTypeKey).getD indexValuesMode
  let start_date : Option Date :=
    match start_date_str with
    | some s => if 5 < s.length then parseDate s else none
    | none => none
  let end_date : Option Date :=
    match end_date_str with
    | some s => if 5 < s.length then parseDate s else none
    | none => none
  let all_series := qgetAll qp seriesKey
  let valid_series := all_series.filterMap fun s =>
    let decoded := plusToSpace s
    if decoded ∈ CPI_SERIES.map Prod.fst then some decoded else none
  let final_series := if valid_series = [] then defaultSeriesPair else valid_series
  let view_type := if view_type0 ∈ validViewTypes then view_type0 else indexValuesMode
  ⟨start_date, end_date, final_series, view_type⟩

/-- The `generate_share_url` function (`app.py` lines 186–203).  `current_url` is the
`_url` query parameter the page reads, `''` when unavailable. -/
def generate_share_url (current_url : PyStr) (start_date end_date : Date)
    (selected_series : List PyStr) (view_type : PyStr) : PyStr :=
  let base_url := if current_url = [] then [] else (splitOnChar '?' current_url).headD []
  let params : List (PyStr × List PyStr) :=
    [(startDateKey, [formatDate start_date]),
     (endDateKey, [formatDate end_date]),
     (seriesKey, selected_series),
     (viewTypeKey, [view_type])]
  base_url ++ '?' :: urlencode params

/-- The query-string portion of a URL (what a browser sends back and the
query-parameter layer parses). -/
def queryStringOf (url : PyStr) : PyStr :=
  match splitFirst '?' url with
  | some p => p.2
  | none => []

/-- Widget default for the start date (`app.py` lines 219–225). -/
def resolveStartDate (p : UrlParams) (now : Date) : Date :=
  p.start_date.getD (defaultStartDate now)

/-- Widget default for the end date (`app.py` lines 226–232). -/
def resolveEndDate (p : UrlParams) (now : Date) : Date :=
  p.end_date.getD (defaultEndDate now)

/-- Modelled from the spec: the Streamlit `st.date_input` widget — library
code, not part of `src/` — constrains its returned value to be at least
`min_value` ("end_date is additionally constrained ≥ start_date by the UI
layer (the widget, not the codec)"). -/
def date_input (value min_value : Date) : Date :=
  if dateLe min_value value then value else min_value

/-- The start date the render cycle actually uses: widget default from the
URL, constrained by `min_value=datetime(1947, 1, 1)` (`app.py` line 224). -/
def renderedStartDate (p : UrlParams) (now : Date) : Date :=
  date_input (resolveStartDate p now) ⟨1947, 1, 1⟩

/-- The end date the render cycle actually uses: widget default from the
URL, constrained by `min_value=start_date` (`app.py` line 231). -/
def renderedEndDate (p : UrlParams) (now : Date) : Date :=
  date_input (resolveEndDate p now) (renderedStartDate p now)

/-! ### Lemmas: percent-encoding round trip on safe characters -/

lemma safeChar_not_special {c : Char} (h : safeChar c = true) :
    c ≠ '+' ∧ c ≠ '%' ∧ c ≠ '&' ∧ c ≠ '=' ∧ c ≠ '?' := by
  refine ⟨?_, ?_, ?_, ?_, ?_⟩ <;> rintro rfl <;> revert h <;> decide

lemma safeOrSpace_cases {c : Char} (h : safeOrSpace c = true) :
    safeChar c = true ∨ c = ' ' := by
  simpa [safeOrSpace, Bool.or_eq_true, decide_eq_true_eq] using h

lemma quote_plus_cons (c : Char) (s : PyStr) :
    quote_plus (c :: s) =
      (if safeChar c then [c]
       else if c = ' ' then ['+']
       else (utf8Bytes c).flatMap percentByte) ++ quote_plus s := by
  simp [quote_plus]

lemma unquote_plus_cons_other {c : Char} (hp : c ≠ '+') (hpc : c ≠ '%')
    (s : PyStr) : unquote_plus (c :: s) = c :: unquote_plus s := by
  rw [unquote_plus.eq_def]
  simp [hp, hpc]

lemma unquote_plus_cons_plus (s : PyStr) :
    unquote_plus ('+' :: s) = ' ' :: unquote_plus s := by
  rw [unquote_plus.eq_def]
  simp

lemma unquote_quote {s : PyStr} (h : ∀ c ∈ s, safeOrSpace c = true) :
    unquote_plus (quote_plus s) = s := by
  induction s with
  | nil => simp [quote_plus, unquote_plus]
  | cons c s ih =>
    have hc := h c (List.mem_cons_self ..)
    have hs : ∀ x ∈ s, safeOrSpace x = true :=
      fun x hx => h x (List.mem_cons_of_mem _ hx)
    rw [quote_plus_cons]
    rcases safeOrSpace_cases hc with hsafe | hspace
    · obtain ⟨h1, h2, -⟩ := safeChar_not_special hsafe
      rw [if_pos hsafe, List.singleton_append,
        unquote_plus_cons_other h1 h2, ih hs]
    · subst hspace
      rw [if_neg (by decide), if_pos rfl, List.singleton_append,
        unquote_plus_cons_plus, ih hs]

lemma mem_quote_plus {s : PyStr} (h : ∀ c ∈ s, safeOrSpace c = true) :
    ∀ x ∈ quote_plus s, safeChar x = true ∨ x = '+' := by
  induction s with
  | nil => simp [quote_plus]
  | cons c s ih =>
    have hc := h c (List.mem_cons_self ..)
    have hs : ∀ x ∈ s, safeOrSpace x = true :=
      fun x hx => h x (List.mem_cons_of_mem _ hx)
    rw [quote_plus_cons]
    intro x hx
    rcases safeOrSpace_cases hc with hsafe | hspace
    · rw [if_pos hsafe] at hx
      rcases List.mem_append.mp hx with hx1 | hx2
      · rcases List.mem_singleton.mp hx1 with rfl
        exact Or.inl hsafe
      · exact ih hs x hx2
    · subst hspace
      rw [if_neg (by decide), if_pos rfl] at hx
      rcases List.mem_append.mp hx with hx1 | hx2
      · rcases List.mem_singleton.mp hx1 with rfl
        exact Or.inr rfl
      · exact ih hs x hx2

lemma quote_plus_no_amp_eq {s : PyStr} (h : ∀ c ∈ s, safeOrSpace c = true) :
    ∀ x ∈ quote_plus s, x ≠ '&' ∧ x ≠ '=' := by
  intro x hx
  rcases mem_quote_plus h x hx with hsafe | rfl
  · obtain ⟨-, -, h3, h4, -⟩ := safeChar_not_special hsafe
    exact ⟨h3, h4⟩
  · exact ⟨by decide, by decide⟩

lemma quote_plus_ne_nil {s : PyStr} (h : ∀ c ∈ s, safeOrSpace c = true)
    (hs : s ≠ []) : quote_plus s ≠ [] := by
  cases s with
  | nil => exact absurd rfl hs
  | cons c s =>
    rw [quote_plus_cons]
    rcases safeOrSpace_cases (h c (List.mem_cons_self ..)) with hsafe | hspace
    · rw [if_pos hsafe]; simp
    · subst hspace; rw [if_neg (by decide), if_pos rfl]; simp

/-! ### Lemmas: splitting strings back apart -/

lemma splitOnChar_ne_nil (sep : Char) (l : PyStr) : splitOnChar sep l ≠ [] := by
  cases l with
  | nil => simp [splitOnChar]
  | cons c rest =>
    cases hsp : splitOnChar sep rest with
    | nil => simp only [splitOnChar, hsp]; split <;> simp
    | cons r rs => simp only [splitOnChar, hsp]; split <;> simp

lemma splitOnChar_no_sep {sep : Char} {f : PyStr} (h : ∀ c ∈ f, c ≠ sep) :
    splitOnChar sep f = [f] := by
  induction f with
  | nil => rfl
  | cons c rest ih =>
    have hrest := ih fun x hx => h x (List.mem_cons_of_mem _ hx)
    have hc : c ≠ sep := h c (List.mem_cons_self ..)
    simp [splitOnChar, hrest, hc]

lemma splitOnChar_append {sep : Char} {f t : PyStr} (h : ∀ c ∈ f, c ≠ sep) :
    splitOnChar sep (f ++ sep :: t) = f :: splitOnChar sep t := by
  induction f with
  | nil =>
    rw [List.nil_append]
    cases hsp : splitOnChar sep t with
    | nil => exact absurd hsp (splitOnChar_ne_nil sep t)
    | cons r rs => simp [splitOnChar, hsp]
  | cons c rest ih =>
    have hc : c ≠ sep := h c (List.mem_cons_self ..)
    have ih2 := ih fun x hx => h x (List.mem_cons_of_mem _ hx)
    cases hsp : splitOnChar sep (rest ++ sep :: t) with
    | nil => exact absurd hsp (splitOnChar_ne_nil _ _)
    | cons r rs =>
      rw [hsp] at ih2
      injection ih2 with hr hrs
      subst hr
      subst hrs
      simp [List.cons_append, splitOnChar, hsp, hc]

lemma splitFirst_append {sep : Char} {a b : PyStr} (h : ∀ c ∈ a, c ≠ sep) :
    splitFirst sep (a ++ sep :: b) = some (a, b) := by
  induction a with
  | nil => simp [splitFirst]
  | cons c rest ih =>
    have hc : c ≠ sep := h c (List.mem_cons_self ..)
    simp [splitFirst, hc, ih fun x hx => h x (List.mem_cons_of_mem _ hx)]

lemma headD_splitOnChar_no_sep (sep : Char) (l : PyStr) :
    ∀ c ∈ (splitOnChar sep l).headD [], c ≠ sep := by
  induction l with
  | nil => simp [splitOnChar]
  | cons c rest ih =>
    cases hsp : splitOnChar sep rest with
    | nil => exact absurd hsp (splitOnChar_ne_nil _ _)
    | cons r rs =>
      rw [hsp] at ih
      by_cases hc : c = sep
      · simp [splitOnChar, hsp, hc]
      · simp only [splitOnChar, hsp, if_neg hc, List.headD_cons]
        intro x hx
        rcases List.mem_cons.mp hx with rfl | hxr
        · exact hc
        · exact ih x (by simpa using hxr)

lemma queryStringOf_append {b q : PyStr} (h : ∀ c ∈ b, c ≠ '?') :
    queryStringOf (b ++ '?' :: q) = q := by
  simp [queryStringOf, splitFirst_append h]

/-! ### Lemmas: parsing an encoded query string recovers the pairs -/

lemma parseField_encodePair {k v : PyStr}
    (hk : ∀ c ∈ k, safeOrSpace c = true) (hv : ∀ c ∈ v, safeOrSpace c = true)
    (hne : v ≠ []) : parseField (encodePair (k, v)) = some (k, v) := by
  have hqv := quote_plus_ne_nil hv hne
  have hknoeq : ∀ c ∈ quote_plus k, c ≠ '=' :=
    fun c hc => (quote_plus_no_amp_eq hk c hc).2
  simp only [encodePair, parseField]
  rw [if_neg (by simp), splitFirst_append hknoeq]
  simp only [if_neg hqv, unquote_quote hk, unquote_quote hv]

lemma encodePair_no_amp {k v : PyStr}
    (hk : ∀ c ∈ k, safeOrSpace c = true) (hv : ∀ c ∈ v, safeOrSpace c = true) :
    ∀ c ∈ encodePair (k, v), c ≠ '&' := by
  intro c hc
  simp only [encodePair, List.mem_append, List.mem_cons] at hc
  rcases hc with h1 | h2 | h3
  · exact (quote_plus_no_amp_eq hk c h1).1
  · subst h2; decide
  · exact (quote_plus_no_amp_eq hv c h3).1

lemma parse_joinAmp_encode (pairs : List (PyStr × PyStr))
    (h : ∀ p ∈ pairs, (∀ c ∈ p.1, safeOrSpace c = true) ∧
      (∀ c ∈ p.2, safeOrSpace c = true) ∧ p.2 ≠ []) :
    parse_query_string (joinAmp (pairs.map encodePair)) = pairs := by
  induction pairs with
  | nil => rfl
  | cons p rest ih =>
    obtain ⟨k, v⟩ := p
    obtain ⟨hk, hv, hne⟩ := h (k, v) (List.mem_cons_self ..)
    have hrest : ∀ q ∈ rest, (∀ c ∈ q.1, safeOrSpace c = true) ∧
        (∀ c ∈ q.2, safeOrSpace c = true) ∧ q.2 ≠ [] :=
      fun q hq => h q (List.mem_cons_of_mem _ hq)
    have hfne : ∀ c ∈ encodePair (k, v), c ≠ '&' := encodePair_no_amp hk hv
    cases rest with
    | nil =>
      simp only [List.map_cons, List.map_nil, joinAmp]
      rw [parse_query_string, splitOnChar_no_sep hfne]
      simp [parseField_encodePair hk hv hne]
    | cons q rest2 =>
      simp only [List.map_cons, joinAmp]
      rw [parse_query_string, splitOnChar_append hfne, List.filterMap_cons,
        parseField_encodePair hk hv hne]
      have ihr := ih hrest
      rw [parse_query_string] at ihr
      simp only [List.map_cons, joinAmp] at ihr
      rw [ihr]

/-! ### Lemmas: decimal digits and the date format round trip -/

lemma isDigitChar_toNat {c : Char} (h : isDigitChar c = true) :
    48 ≤ c.toNat ∧ c.toNat ≤ 57 := by
  simpa [isDigitChar, Bool.and_eq_true, decide_eq_true_eq] using h

lemma digitChar_isDigit {d : Nat} (h : d < 10) :
    isDigitChar (digitChar d) = true := by
  interval_cases d <;> decide

lemma natCharsAux_eq_digits :
    ∀ (fuel n : Nat), n < fuel →
      natCharsAux fuel n = ((Nat.digits 10 n).map digitChar).reverse := by
  intro fuel
  induction fuel with
  | zero => intro n h; omega
  | succ fuel ih =>
    intro n h
    cases n with
    | zero => simp [natCharsAux]
    | succ n =>
      have hdiv : (n + 1) / 10 < fuel := by
        have h1 : (n + 1) / 10 < n + 1 := Nat.div_lt_self (by omega) (by norm_num)
        omega
      rw [natCharsAux, ih _ hdiv,
        Nat.digits_def' (by norm_num : (1 : ℕ) < 10) (Nat.succ_pos n)]
      simp

lemma natChars_eq_digits {n : Nat} (h : ¬(n = 0)) :
    natChars n = ((Nat.digits 10 n).map digitChar).reverse := by
  rw [natChars, if_neg h]
  exact natCharsAux_eq_digits (n + 1) n (by omega)

lemma natChars_isDigit (n : Nat) : ∀ c ∈ natChars n, isDigitChar c = true := by
  intro c hc
  by_cases h0 : n = 0
  · subst h0
    simp [natChars] at hc
    subst hc
    decide
  · rw [natChars_eq_digits h0] at hc
    simp only [List.mem_reverse, List.mem_map] at hc
    obtain ⟨d, hd, rfl⟩ := hc
    exact digitChar_isDigit (Nat.digits_lt_base (by norm_num) hd)

lemma padZero_isDigit {l : List Char} (k : Nat)
    (h : ∀ c ∈ l, isDigitChar c = true) :
    ∀ c ∈ padZero k l, isDigitChar c = true := by
  intro c hc
  simp only [padZero, List.mem_append, List.mem_replicate] at hc
  rcases hc with ⟨-, rfl⟩ | hc2
  · decide
  · exact h c hc2

lemma takeDigits_fst_isDigit :
    ∀ (k : Nat) (s : PyStr), ∀ c ∈ (takeDigits k s).1, isDigitChar c = true := by
  intro k
  induction k with
  | zero => intro s c hc; simp [takeDigits] at hc
  | succ k ih =>
    intro s c hc
    cases s with
    | nil => simp [takeDigits] at hc
    | cons a rest =>
      by_cases ha : isDigitChar a = true
      · simp only [takeDigits, if_pos ha, List.mem_cons] at hc
        rcases hc with rfl | hc2
        · exact ha
        · exact ih rest c hc2
      · simp [takeDigits, ha] at hc

lemma takeDigits_fst_length :
    ∀ (k : Nat) (s : PyStr), (takeDigits k s).1.length ≤ k := by
  intro k
  induction k with
  | zero => intro s; simp [takeDigits]
  | succ k ih =>
    intro s
    cases s with
    | nil => simp [takeDigits]
    | cons a rest =>
      by_cases ha : isDigitChar a = true
      · simp only [takeDigits, if_pos ha, List.length_cons]
        exact Nat.succ_le_succ (ih rest)
      · simp [takeDigits, ha]

lemma charsToNat_lt_pow (l : List Char) (h : ∀ c ∈ l, isDigitChar c = true) :
    charsToNat l < 10 ^ l.length := by
  have hgen : ∀ (m : List Char), (∀ c ∈ m, isDigitChar c = true) →
      ∀ a : Nat, m.foldl (fun x c => 10 * x + (c.toNat - 48)) a
        < (a + 1) * 10 ^ m.length := by
    intro m hm
    induction m with
    | nil => intro a; simp
    | cons c m ih =>
      intro a
      have hc := isDigitChar_toNat (hm c (List.mem_cons_self ..))
      have ih2 := ih (fun x hx => hm x (List.mem_cons_of_mem _ hx))
        (10 * a + (c.toNat - 48))
      simp only [List.foldl_cons, List.length_cons]
      calc m.foldl (fun x c => 10 * x + (c.toNat - 48)) (10 * a + (c.toNat - 48))
          < (10 * a + (c.toNat - 48) + 1) * 10 ^ m.length := ih2
        _ ≤ ((a + 1) * 10) * 10 ^ m.length := by
            have h1 : 10 * a + (c.toNat - 48) + 1 ≤ (a + 1) * 10 := by omega
            exact Nat.mul_le_mul_right _ h1
        _ = (a + 1) * 10 ^ (m.length + 1) := by ring
  simpa [charsToNat] using hgen l h 0

lemma parseDate_valid {s : PyStr} {d : Date} (h : parseDate s = some d) :
    ValidDate d := by
  simp only [parseDate] at h
  repeat' split at h
  all_goals simp_all

lemma isDigitChar_safe {c : Char} (h : isDigitChar c = true) :
    safeOrSpace c = true := by
  obtain ⟨hlo, hhi⟩ := isDigitChar_toNat h
  have hc : c = Char.ofNat c.toNat := (Char.ofNat_toNat c).symm
  rw [hc]
  set n := c.toNat with hn
  interval_cases n <;> decide

lemma formatDate_safe (d : Date) : ∀ c ∈ formatDate d, safeOrSpace c = true := by
  intro c hc
  simp only [formatDate, List.mem_append, List.mem_cons] at hc
  rcases hc with hy | rfl | hm | rfl | hd2
  · exact isDigitChar_safe (padZero_isDigit 4 (natChars_isDigit _) c hy)
  · decide
  · exact isDigitChar_safe (padZero_isDigit 2 (natChars_isDigit _) c hm)
  · decide
  · exact isDigitChar_safe (padZero_isDigit 2 (natChars_isDigit _) c hd2)

lemma formatDate_ne_nil (d : Date) : formatDate d ≠ [] := by
  simp only [formatDate, padZero]
  intro hcon
  simp at hcon

/-! ### Lemmas: the decoder on well-formed inputs -/

lemma catalog_mem_safe {s : PyStr} (h : s ∈ CPI_SERIES.map Prod.fst) :
    ∀ c ∈ s, safeOrSpace c = true := by
  simp only [CPI_SERIES, List.map_cons, List.map_nil, List.mem_cons,
    List.not_mem_nil, or_false] at h
  rcases h with rfl | rfl | rfl | rfl | rfl | rfl | rfl | rfl | rfl <;> decide

lemma catalog_mem_ne_nil {s : PyStr} (h : s ∈ CPI_SERIES.map Prod.fst) :
    s ≠ [] := by
  simp only [CPI_SERIES, List.map_cons, List.map_nil, List.mem_cons,
    List.not_mem_nil, or_false] at h
  rcases h with rfl | rfl | rfl | rfl | rfl | rfl | rfl | rfl | rfl <;> decide

lemma viewType_mem_safe {v : PyStr} (h : v ∈ validViewTypes) :
    ∀ c ∈ v, safeOrSpace c = true := by
  simp only [validViewTypes, List.mem_cons, List.not_mem_nil, or_false] at h
  rcases h with rfl | rfl | rfl <;> decide

lemma viewType_mem_ne_nil {v : PyStr} (h : v ∈ validViewTypes) : v ≠ [] := by
  simp only [validViewTypes, List.mem_cons, List.not_mem_nil, or_false] at h
  rcases h with rfl | rfl | rfl <;> decide

lemma queryStringOf_generate (u : PyStr) (sd ed : Date)
    (series : List PyStr) (view : PyStr) :
    queryStringOf (generate_share_url u sd ed series view) =
      urlencode [(startDateKey, [formatDate sd]), (endDateKey, [formatDate ed]),
        (seriesKey, series), (viewTypeKey, [view])] := by
  rw [generate_share_url]
  by_cases hu : u = []
  · rw [if_pos hu, List.nil_append]
    simp [queryStringOf, splitFirst]
  · rw [if_neg hu]
    exact queryStringOf_append (headD_splitOnChar_no_sep _ u)

lemma filterMap_plusToSpace_filter (l : List PyStr) :
    (l.filterMap fun s =>
      if plusToSpace s ∈ CPI_SERIES.map Prod.fst then some (plusToSpace s)
      else none) =
      (l.map plusToSpace).filter fun s =>
        decide (s ∈ CPI_SERIES.map Prod.fst) := by
  induction l with
  | nil => rfl
  | cons s l ih =>
    by_cases h : plusToSpace s ∈ CPI_SERIES.map Prod.fst <;>
      simp [List.filterMap_cons, h, ih]

lemma opt_date_field_valid {o : Option PyStr} {d : Date}
    (h : (match o with
          | some s => if 5 < s.length then parseDate s else none
          | none => none) = some d) : ValidDate d := by
  cases o with
  | none => simp at h
  | some s =>
    simp only at h
    split at h
    · exact parseDate_valid h
    · simp at h


/-! ### Lemmas: color assignment by iteration position -/

lemma find?_enumFrom {α : Type} [DecidableEq α] :
    ∀ (l : List α) (n i : Nat) (a : α), l.Nodup → l[i]? = some a →
      (l.enumFrom n).find? (fun p => decide (p.2 = a)) = some (n + i, a) := by
  intro l
  induction l with
  | nil => intro n i a _ h; simp at h
  | cons b rest ih =>
    intro n i a hnd h
    cases i with
    | zero =>
      simp only [List.getElem?_cons_zero, Option.some.injEq] at h
      subst h
      simp [List.enumFrom, List.find?]
    | succ i =>
      have hrest : rest[i]? = some a := by simpa using h
      have hmem : a ∈ rest := List.getElem?_mem hrest
      have hb : ¬(b = a) := by
        intro hcon
        subst hcon
        exact (List.nodup_cons.mp hnd).1 hmem
      have ih2 := ih (n + 1) i a (List.nodup_cons.mp hnd).2 hrest
      have harith : n + (i + 1) = (n + 1) + i := by omega
      rw [harith, ← ih2]
      simp [List.enumFrom, List.find?, decide_eq_false hb]

lemma series_colors_eq {names : List PyStr} {i : Nat} {a : PyStr}
    (hnd : names.Nodup) (h : names[i]? = some a) :
    series_colors names a = COLOR_PALETTE.getD (i % 9) [] := by
  rw [series_colors, List.enum, find?_enumFrom names 0 i a hnd h]
  have hlen : COLOR_PALETTE.length = 9 := rfl
  simp [hlen]

/-! ### Lemmas: decoded fields live in their valid domains -/

lemma get_url_params_series (qp : List (PyStr × PyStr)) :
    (get_url_params qp).series =
      (if ((qgetAll qp seriesKey).map plusToSpace).filter
          (fun s => decide (s ∈ CPI_SERIES.map Prod.fst)) = []
       then defaultSeriesPair
       else ((qgetAll qp seriesKey).map plusToSpace).filter
          (fun s => decide (s ∈ CPI_SERIES.map Prod.fst))) := by
  simp only [get_url_params, filterMap_plusToSpace_filter]

lemma get_url_params_series_ne_nil (qp : List (PyStr × PyStr)) :
    (get_url_params qp).series ≠ [] := by
  rw [get_url_params_series]
  split
  · decide
  · assumption

lemma get_url_params_series_subset (qp : List (PyStr × PyStr)) :
    ∀ s ∈ (get_url_params qp).series, s ∈ CPI_SERIES.map Prod.fst := by
  rw [get_url_params_series]
  split
  · intro s hs
    simp only [defaultSeriesPair, List.mem_cons, List.not_mem_nil, or_false] at hs
    rcases hs with rfl | rfl <;> decide
  · intro s hs
    have := (List.mem_filter.mp hs).2
    exact of_decide_eq_true this

lemma get_url_params_view_mem (qp : List (PyStr × PyStr)) :
    (get_url_params qp).view_type ∈ validViewTypes := by
  simp only [get_url_params]
  split
  · assumption
  · decide

lemma get_url_params_start_valid (qp : List (PyStr × PyStr)) :
    ∀ d, (get_url_params qp).start_date = some d → ValidDate d := by
  intro d h
  simp only [get_url_params] at h
  exact opt_date_field_valid h

lemma get_url_params_end_valid (qp : List (PyStr × PyStr)) :
    ∀ d, (get_url_params qp).end_date = some d → ValidDate d := by
  intro d h
  simp only [get_url_params] at h
  exact opt_date_field_valid h

/-! ### Lemmas: each decoded field depends only on its own parameter -/

lemma qget_filter_self (qp : List (PyStr × PyStr)) (k : PyStr) :
    qget (qp.filter fun p => decide (p.1 = k)) k = qget qp k := by
  rw [qget, qget, List.filter_filter]
  simp [Bool.and_self]

lemma qgetAll_filter_self (qp : List (PyStr × PyStr)) (k : PyStr) :
    qgetAll (qp.filter fun p => decide (p.1 = k)) k = qgetAll qp k := by
  rw [qgetAll, qgetAll, List.filter_filter]
  simp [Bool.and_self]

lemma get_url_params_series_only (qp : List (PyStr × PyStr)) :
    (get_url_params (qp.filter fun p => decide (p.1 = seriesKey))).series =
      (get_url_params qp).series := by
  rw [get_url_params_series, get_url_params_series, qgetAll_filter_self]

lemma get_url_params_view_only (qp : List (PyStr × PyStr)) :
    (get_url_params (qp.filter fun p => decide (p.1 = viewTypeKey))).view_type =
      (get_url_params qp).view_type := by
  simp only [get_url_params, qget_filter_self]

lemma get_url_params_start_only (qp : List (PyStr × PyStr)) :
    (get_url_params (qp.filter fun p => decide (p.1 = startDateKey))).start_date =
      (get_url_params qp).start_date := by
  simp only [get_url_params, qget_filter_self]

lemma get_url_params_end_only (qp : List (PyStr × PyStr)) :
    (get_url_params (qp.filter fun p => decide (p.1 = endDateKey))).end_date =
      (get_url_params qp).end_date := by
  simp only [get_url_params, qget_filter_self]

lemma filter_kv_cons_ne {k k2 : PyStr} (v : PyStr) (l : List (PyStr × PyStr))
    (h : ¬(k = k2)) :
    (((k, v) :: l).filter fun p => decide (p.1 = k2)) =
      l.filter fun p => decide (p.1 = k2) := by
  simp [List.filter_cons, h]

lemma parse_share_url (u : PyStr) (sd ed : Date) (series : List PyStr)
    (view : PyStr) (hser : ∀ s ∈ series, s ∈ CPI_SERIES.map Prod.fst)
    (hview : view ∈ validViewTypes) :
    parse_query_string (queryStringOf (generate_share_url u sd ed series view)) =
      (startDateKey, formatDate sd) :: (endDateKey, formatDate ed) ::
        ((series.map fun s => (seriesKey, s)) ++ [(viewTypeKey, view)]) := by
  rw [queryStringOf_generate, urlencode]
  have hflat : flattenParams
      [(startDateKey, [formatDate sd]), (endDateKey, [formatDate ed]),
        (seriesKey, series), (viewTypeKey, [view])] =
      (startDateKey, formatDate sd) :: (endDateKey, formatDate ed) ::
        ((series.map fun s => (seriesKey, s)) ++ [(viewTypeKey, view)]) := by
    simp [flattenParams]
  rw [hflat]
  apply parse_joinAmp_encode
  intro p hp
  simp only [List.mem_cons, List.mem_append, List.mem_map, List.not_mem_nil,
    or_false] at hp
  rcases hp with rfl | rfl | ⟨s, hs, rfl⟩ | rfl
  · exact ⟨(by decide : ∀ c ∈ startDateKey, safeOrSpace c = true),
      formatDate_safe sd, formatDate_ne_nil sd⟩
  · exact ⟨(by decide : ∀ c ∈ endDateKey, safeOrSpace c = true),
      formatDate_safe ed, formatDate_ne_nil ed⟩
  · exact ⟨(by decide : ∀ c ∈ seriesKey, safeOrSpace c = true),
      catalog_mem_safe (hser s hs), catalog_mem_ne_nil (hser s hs)⟩
  · exact ⟨(by decide : ∀ c ∈ viewTypeKey, safeOrSpace c = true),
      viewType_mem_safe hview, viewType_mem_ne_nil hview⟩

/-! ### Claim theorems -/

/-- C10: when the selected-series list given to the encoder is empty,
`urlencode(..., doseq=True)` drops the `series` key entirely, so the parsed
query string carries no `series` parameter and the decoder falls back to the
default series pair — the empty selection does not survive the round trip. -/
theorem c10_empty_series_dropped (u : PyStr) (sd ed : Date) (view : PyStr)
    (hview : view ∈ validViewTypes) :
    (∀ p ∈ parse_query_string (queryStringOf
        (generate_share_url u sd ed [] view)), p.1 ≠ seriesKey) ∧
    (get_url_params (parse_query_string (queryStringOf
        (generate_share_url u sd ed [] view)))).series = defaultSeriesPair := by
  have hp := parse_share_url u sd ed [] view (by simp) hview
  simp only [List.map_nil, List.nil_append] at hp
  constructor
  · rw [hp]
    intro p hmem
    simp only [List.mem_cons, List.not_mem_nil, or_false] at hmem
    rcases hmem with rfl | rfl | rfl
    · exact (by decide : ¬(startDateKey = seriesKey))
    · exact (by decide : ¬(endDateKey = seriesKey))
    · exact (by decide : ¬(viewTypeKey = seriesKey))
  · rw [hp, get_url_params_series]
    have hq : qgetAll ((startDateKey, formatDate sd) :: (endDateKey, formatDate ed) ::
        [(viewTypeKey, view)]) seriesKey = [] := by
      rw [qgetAll, filter_kv_cons_ne _ _ (by decide), filter_kv_cons_ne _ _ (by decide),
        filter_kv_cons_ne _ _ (by decide)]
      rfl
    rw [hq]
    simp

/-- C10, witness: the empty selection at a concrete state. -/
theorem c10_empty_series_dropped_witness :
    bothMode ∈ validViewTypes ∧
    (get_url_params (parse_query_string (queryStringOf
        (generate_share_url [] ⟨2020, 1, 2⟩ ⟨2025, 3, 4⟩ [] bothMode)))).series =
      defaultSeriesPair :=
  ⟨by decide,
   (c10_empty_series_dropped [] ⟨2020, 1, 2⟩ ⟨2025, 3, 4⟩ bothMode (by decide)).2⟩

/-- C2: `get_url_params` is total (a Lean function) and every field of its
result lies in its valid domain — the series list is nonempty and drawn from
the catalog, the view type is one of the three labels, and any date present
is calendar-valid; moreover each output field is computed from that field's
own query parameters alone, so an invalid value for one field cannot affect
the others. -/
theorem c2_decode_total (qp : List (PyStr × PyStr)) :
    (get_url_params qp).series ≠ [] ∧
    (∀ s ∈ (get_url_params qp).series, s ∈ CPI_SERIES.map Prod.fst) ∧
    (get_url_params qp).view_type ∈ validViewTypes ∧
    (∀ d, (get_url_params qp).start_date = some d → ValidDate d) ∧
    (∀ d, (get_url_params qp).end_date = some d → ValidDate d) ∧
    (get_url_params (qp.filter fun p => decide (p.1 = startDateKey))).start_date =
      (get_url_params qp).start_date ∧
    (get_url_params (qp.filter fun p => decide (p.1 = endDateKey))).end_date =
      (get_url_params qp).end_date ∧
    (get_url_params (qp.filter fun p => decide (p.1 = seriesKey))).series =
      (get_url_params qp).series ∧
    (get_url_params (qp.filter fun p => decide (p.1 = viewTypeKey))).view_type =
      (get_url_params qp).view_type :=
  ⟨get_url_params_series_ne_nil qp, get_url_params_series_subset qp,
   get_url_params_view_mem qp, get_url_params_start_valid qp,
   get_url_params_end_valid qp, get_url_params_start_only qp,
   get_url_params_end_only qp, get_url_params_series_only qp,
   get_url_params_view_only qp⟩

/-- C2, witness: a garbage mapping decodes to valid defaults, and a mapping
with one valid date field yields a calendar-valid date. -/
theorem c2_decode_total_witness :
    (get_url_params [(pystr ("start_date"), pystr ("14")),
      (pystr ("series"), pystr ("Nope")), (pystr ("view_type"), pystr ("???")),
      (pystr ("junk"), pystr ("1"))]).series ≠ [] ∧
    ValidDate ⟨2024, 2, 29⟩ :=
  ⟨(c2_decode_total [(pystr ("start_date"), pystr ("14")),
      (pystr ("series"), pystr ("Nope")), (pystr ("view_type"), pystr ("???")),
      (pystr ("junk"), pystr ("1"))]).1,
   (c2_decode_total [(pystr ("start_date"), pystr ("2024-02-29"))]).2.2.2.1
     ⟨2024, 2, 29⟩ (by decide)⟩

/-- C3: the decoded series list is obtained by replacing `+` with a space in
every `series` parameter value, keeping exactly (and in order) the values
that are catalog display names, and substituting the fixed default pair
`{"All Items", "All Items Less Food and Energy"}` when no valid value
remains. -/
theorem c3_series_filter (qp : List (PyStr × PyStr)) :
    (get_url_params qp).series =
      (if ((qgetAll qp seriesKey).map plusToSpace).filter
          (fun s => decide (s ∈ CPI_SERIES.map Prod.fst)) = []
       then [pystr ("All Items"), pystr ("All Items Less Food and Energy")]
       else ((qgetAll qp seriesKey).map plusToSpace).filter
          (fun s => decide (s ∈ CPI_SERIES.map Prod.fst))) :=
  get_url_params_series qp

/-- C3, witness: `series=All+Items&series=Bogus` decodes to exactly
`["All Items"]`. -/
theorem c3_series_filter_witness :
    (get_url_params [(pystr ("series"), pystr ("All+Items")),
      (pystr ("series"), pystr ("Bogus"))]).series = [pystr ("All Items")] := by
  have h := c3_series_filter [(pystr ("series"), pystr ("All+Items")),
    (pystr ("series"), pystr ("Bogus"))]
  rw [h]
  decide

/-- C4: for a monthly index-value series, the computed YoY sequence has one
entry per observation; at every position `i ≥ 12` it equals
`(value[i] / value[i-12] - 1) * 100`, and at every position with fewer than
12 prior observations it is the missing value `none` — not zero and not an
error. -/
theorem c4_yoy_formula (values : List ℚ) (i : Nat) (hi : i < values.length) :
    (calculate_yoy_change values).length = values.length ∧
    (12 ≤ i → (calculate_yoy_change values)[i]? =
      some (some ((values.getD i 0 / values.getD (i - 12) 0 - 1) * 100))) ∧
    (i < 12 → (calculate_yoy_change values)[i]? = some none) := by
  refine ⟨?_, ?_, ?_⟩
  · simp [calculate_yoy_change, pct_change]
  · intro h12
    simp [calculate_yoy_change, pct_change, List.getElem?_map, List.getElem?_range,
      hi, h12]
  · intro h12
    have hn : ¬(12 ≤ i) := by omega
    simp [calculate_yoy_change, pct_change, List.getElem?_map, List.getElem?_range,
      hi, hn]

/-- C4, witness: on the 24-point series `value[i] = 100 + i`, `yoy[12] = 12`
and `yoy[0]` is missing. -/
theorem c4_yoy_formula_witness :
    12 < ([100, 101, 102, 103, 104, 105, 106, 107, 108, 109, 110, 111, 112,
      113, 114, 115, 116, 117, 118, 119, 120, 121, 122, 123] : List ℚ).length ∧
    (calculate_yoy_change [100, 101, 102, 103, 104, 105, 106, 107, 108, 109,
      110, 111, 112, 113, 114, 115, 116, 117, 118, 119, 120, 121, 122,
      123])[12]? = some (some 12) ∧
    (calculate_yoy_change [100, 101, 102, 103, 104, 105, 106, 107, 108, 109,
      110, 111, 112, 113, 114, 115, 116, 117, 118, 119, 120, 121, 122,
      123])[0]? = some none := by
  refine ⟨by decide, ?_, ?_⟩
  · have h := (c4_yoy_formula [100, 101, 102, 103, 104, 105, 106, 107, 108,
      109, 110, 111, 112, 113, 114, 115, 116, 117, 118, 119, 120, 121, 122,
      123] 12 (by decide)).2.1 (by norm_num)
    rw [h]
    have e1 : ([100, 101, 102, 103, 104, 105, 106, 107, 108, 109, 110, 111,
      112, 113, 114, 115, 116, 117, 118, 119, 120, 121, 122,
      123] : List ℚ).getD 12 0 = 112 := rfl
    have e2 : ([100, 101, 102, 103, 104, 105, 106, 107, 108, 109, 110, 111,
      112, 113, 114, 115, 116, 117, 118, 119, 120, 121, 122,
      123] : List ℚ).getD (12 - 12) 0 = 100 := rfl
    rw [e1, e2]
    norm_num
  · exact (c4_yoy_formula [100, 101, 102, 103, 104, 105, 106, 107, 108, 109,
      110, 111, 112, 113, 114, 115, 116, 117, 118, 119, 120, 121, 122,
      123] 0 (by decide)).2.2 (by norm_num)

/-- C5: the palette has nine colors and each display name in a named-series
mapping (unique keys, as in a Python dict) is assigned the palette color at
its iteration position modulo 9.  `series_colors` is a pure function, so two
calls on the same input in the same order assign identical colors. -/
theorem c5_color_assignment :
    COLOR_PALETTE.length = 9 ∧
    ∀ (names : List PyStr) (i : Nat) (a : PyStr), names.Nodup →
      names[i]? = some a →
      series_colors names a = COLOR_PALETTE.getD (i % 9) [] :=
  ⟨rfl, fun _ _ _ hnd h => series_colors_eq hnd h⟩

/-- C5, witness: in `{"All Items": …, "Housing": …}` the second series gets
palette color 1. -/
theorem c5_color_assignment_witness :
    ([pystr ("All Items"), pystr ("Housing")] : List PyStr).Nodup ∧
    ([pystr ("All Items"), pystr ("Housing")] : List PyStr)[1]? =
      some (pystr ("Housing")) ∧
    series_colors [pystr ("All Items"), pystr ("Housing")] (pystr ("Housing")) =
      COLOR_PALETTE.getD (1 % 9) [] :=
  ⟨by decide, by decide,
   c5_color_assignment.2 [pystr ("All Items"), pystr ("Housing")] 1
     (pystr ("Housing")) (by decide) (by decide)⟩

/-- C7: in each of the three view modes the trace order of the produced
figure equals the input iteration order, and in Both mode all index-value
traces precede every YoY trace. -/
theorem c7_trace_order (df_dict : List (PyStr × DataFrame)) :
    ((create_plot df_dict indexValuesMode).traces.map (fun t => t.name) =
      df_dict.map fun p => p.1 ++ pystr (" (Index)")) ∧
    ((create_plot df_dict yoyChangesMode).traces.map (fun t => t.name) =
      df_dict.map fun p => p.1 ++ pystr (" (YoY %)")) ∧
    ((create_plot df_dict bothMode).traces.map (fun t => t.name) =
      (df_dict.map fun p => p.1 ++ pystr (" (Index)")) ++
        (df_dict.map fun p => p.1 ++ pystr (" (YoY %)"))) := by
  have h1 : ¬(indexValuesMode = bothMode) := by decide
  have h2 : ¬(indexValuesMode = yoyChangesMode) := by decide
  have h3 : ¬(yoyChangesMode = indexValuesMode) := by decide
  have h4 : ¬(yoyChangesMode = bothMode) := by decide
  have h5 : ¬(bothMode = indexValuesMode) := by decide
  have h6 : ¬(bothMode = yoyChangesMode) := by decide
  refine ⟨?_, ?_, ?_⟩ <;>
    simp [create_plot, h1, h2, h3, h4, h5, h6, List.map_map, Function.comp_def]

/-- C6: in view mode Both the figure holds exactly two traces per series:
at position `i` the index-value trace — non-solid (Plotly dash style `dot`),
bound to the primary axis, named `<series> (Index)` — and at position
`|df_dict| + i` the YoY trace — solid, bound to the secondary axis, named
`<series> (YoY %)` — both in the series' assigned color, with the primary
axis titled "Index Value" and the secondary axis titled
"Year-over-Year Change (%)". -/
theorem c6_both_mode_traces (df_dict : List (PyStr × DataFrame))
    (hnd : (df_dict.map Prod.fst).Nodup) (i : Nat) (name : PyStr)
    (df : DataFrame) (hi : df_dict[i]? = some (name, df)) :
    (create_plot df_dict bothMode).traces.length = 2 * df_dict.length ∧
    (create_plot df_dict bothMode).traces[i]? = some
      { x := df.index, y := df.value.map some,
        name := name ++ pystr (" (Index)"), width := 2,
        color := COLOR_PALETTE.getD (i % 9) [], dash := DashStyle.dot,
        yaxis := AxisSide.y } ∧
    (create_plot df_dict bothMode).traces[df_dict.length + i]? = some
      { x := df.index, y := calculate_yoy_change df.value,
        name := name ++ pystr (" (YoY %)"), width := 2,
        color := COLOR_PALETTE.getD (i % 9) [], dash := DashStyle.solid,
        yaxis := AxisSide.y2 } ∧
    DashStyle.dot ≠ DashStyle.solid ∧
    (create_plot df_dict bothMode).layout =
      { yaxis_title := pystr ("Index Value"),
        yaxis2_title := some (pystr ("Year-over-Year Change (%)")) } := by
  have h5 : ¬(bothMode = indexValuesMode) := by decide
  have hname : (df_dict.map Prod.fst)[i]? = some name := by
    simp [List.getElem?_map, hi]
  have hcolor : series_colors (df_dict.map Prod.fst) name =
      COLOR_PALETTE.getD (i % 9) [] := series_colors_eq hnd hname
  have hilt : i < df_dict.length := by
    by_contra hcon
    rw [List.getElem?_eq_none (by omega)] at hi
    exact Option.noConfusion hi
  refine ⟨?_, ?_, ?_, by decide, ?_⟩
  · simp only [create_plot, h5, or_true, if_true, eq_self_iff_true,
      List.length_append, List.length_map]
    ring
  · simp only [create_plot, h5, or_true, if_true, eq_self_iff_true]
    rw [List.getElem?_append_left (by simpa using hilt)]
    simp [List.getElem?_map, hi, hcolor]
  · simp only [create_plot, h5, or_true, if_true, eq_self_iff_true]
    rw [List.getElem?_append_right (by simp)]
    simp [List.getElem?_map, hi, hcolor]
  · simp [create_plot]

/-- C6, witness: a one-series dictionary in Both mode. -/
theorem c6_both_mode_traces_witness :
    (([(pystr ("All Items"), (⟨[⟨2020, 1, 1⟩], [100]⟩ : DataFrame))].map
        Prod.fst).Nodup) ∧
    ([(pystr ("All Items"), (⟨[⟨2020, 1, 1⟩], [100]⟩ : DataFrame))][0]? =
      some (pystr ("All Items"), ⟨[⟨2020, 1, 1⟩], [100]⟩)) ∧
    (create_plot [(pystr ("All Items"), ⟨[⟨2020, 1, 1⟩], [100]⟩)]
        bothMode).traces.length = 2 * 1 ∧
    (create_plot [(pystr ("All Items"), ⟨[⟨2020, 1, 1⟩], [100]⟩)]
        bothMode).layout =
      { yaxis_title := pystr ("Index Value")
        yaxis2_title := some (pystr ("Year-over-Year Change (%)")) } := by
  have h := c6_both_mode_traces
    [(pystr ("All Items"), (⟨[⟨2020, 1, 1⟩], [100]⟩ : DataFrame))]
    (by simp) 0 (pystr ("All Items")) ⟨[⟨2020, 1, 1⟩], [100]⟩ rfl
  exact ⟨by simp, rfl, h.1, h.2.2.2.2⟩

lemma dateLe_refl (d : Date) : dateLe d d = true := by simp [dateLe]

/-- C9: every ViewState the render cycle reconstructs from a URL satisfies
the invariants — the start date the widgets deliver is ≤ the end date (the
widget, modelled from the spec as clamping to its `min_value`, enforces
this even though `get_url_params` itself does not), every selected display
name is a catalog key (nonempty selection), and the view mode is one of the
three labels; violations fall back to defaults. -/
theorem c9_rendered_invariants (qp : List (PyStr × PyStr)) (now : Date) :
    dateLe (renderedStartDate (get_url_params qp) now)
      (renderedEndDate (get_url_params qp) now) = true ∧
    (∀ s ∈ (get_url_params qp).series, s ∈ CPI_SERIES.map Prod.fst) ∧
    (get_url_params qp).series ≠ [] ∧
    (get_url_params qp).view_type ∈ validViewTypes := by
  refine ⟨?_, get_url_params_series_subset qp, get_url_params_series_ne_nil qp,
    get_url_params_view_mem qp⟩
  rw [renderedEndDate, date_input]
  split
  · assumption
  · exact dateLe_refl _

/-- C9, witness: a URL whose start date is after its end date still renders
with start ≤ end. -/
theorem c9_rendered_invariants_witness :
    dateLe
      (renderedStartDate (get_url_params [(pystr ("start_date"),
        pystr ("2030-01-01")), (pystr ("end_date"), pystr ("2020-01-01"))])
        ⟨2026, 10, 12⟩)
      (renderedEndDate (get_url_params [(pystr ("start_date"),
        pystr ("2030-01-01")), (pystr ("end_date"), pystr ("2020-01-01"))])
        ⟨2026, 10, 12⟩) = true :=
  (c9_rendered_invariants [(pystr ("start_date"), pystr ("2030-01-01")),
    (pystr ("end_date"), pystr ("2020-01-01"))] ⟨2026, 10, 12⟩).1
